import Mathlib

/-!
Verification of the encrypted-attribute store and homomorphic-style equality
engine (FHESimulator, src/server/lib/fhe.ts) together with the register and
verify route handlers (src/unnamed/part_000) and the zod input schema
(src/shared/schema.ts).

Modelling conventions.

JSON values returned by JSON.parse are modelled by the inductive type Js.
JavaScript numbers are modelled exactly: stored numbers as Int (every
number the program stores — ages, the 0/1 match bits — is a small integer,
exactly representable, and JSON round-trips it unchanged), and the result
of ToNumber on a string as an exact rational.  No binary64 rounding or
overflow is modelled; this idealisation is applied uniformly to both sides
of every comparison and is exact for all values within the range where
doubles are exact, which covers everything the program handles.

A ciphertext travels as a string.  FHESimulator.decrypt inspects that string
only through JSON.parse, the property accesses ct.type / ct.data / ct.noise,
a base64 decode of ct.data, and JSON.parse of the decoded bytes.  CtWire
models the string by the outcome of those observations: the constructor
notJson is a string JSON.parse rejects, isNull a string parsing to JSON
null (property access on null throws), and value t d n any other parse
result, where t and n are the results of the .type and .noise accesses
(none models undefined) and d is the data field as Buffer.from sees it.
DataField.invalid covers a data value Buffer.from rejects (undefined, null,
a number, a boolean, a plain object); DataField.content p covers a string
(Node decodes any string leniently as base64), with p the outcome of
JSON.parse on the decoded bytes.  The base64 and JSON serialisation layers
are injective, so equality of these structured views coincides with equality
of the wire strings they stand for.
-/

/-- JSON values, the model of what JSON.parse can return. -/
inductive Js where
  | jNull
  | jBool (b : Bool)
  | jNum (n : Int)
  | jStr (s : String)
  | jArr (elems : List Js)
  | jObj (fields : List (String × Js))
deriving Repr

/-- Plaintexts the encryption primitive accepts: the value parameter of
FHESimulator.encrypt has TypeScript type string or number. -/
inductive Value where
  | vStr (s : String)
  | vInt (n : Int)
deriving Repr, DecidableEq

/-- Embedding of a plaintext into the JSON payload written by encrypt. -/
def Value.toJs : Value → Js
  | .vStr s => .jStr s
  | .vInt n => .jNum n

/-- Reading a JSON value back as a plaintext of the representable tagged
union: strings and numbers only. -/
def Js.toValue : Js → Option Value
  | .jStr s => some (.vStr s)
  | .jNum n => some (.vInt n)
  | _ => none

/-- Outcome of JSON.parse on the base64-decoded bytes of the data field. -/
inductive PayloadWire where
  | notJson
  | val (j : Js)
deriving Repr

/-- The data property of a parsed envelope, as Buffer.from sees it. -/
inductive DataField where
  | invalid
  | content (p : PayloadWire)
deriving Repr

/-- A ciphertext string as FHESimulator.decrypt observes it; see the module
comment for the correspondence with the wire format. -/
inductive CtWire where
  | notJson
  | isNull
  | value (typeTag : Option Js) (data : DataField) (noise : Option Js)
deriving Repr

/-- The single failure the simulator raises: the catch-all in decrypt throws
new Error with message Decryption Failed. -/
inductive FheError where
  | decryptionFailed
deriving Repr, DecidableEq

/-- JavaScript property access json.v on a non-null parsed JSON value:
an object yields its v property when present, everything else (numbers,
strings, booleans, arrays) yields undefined, modelled as none. -/
def propV : Js → Option Js
  | .jObj kvs => (kvs.find? (fun kv => kv.1 == "v")).map (fun kv => kv.2)
  | _ => none

/-- The check ct.type !== 'FHE_CT' of decrypt: strict inequality with a
string literal holds unless the property is that very string, so the guard
passes exactly when the type tag is the string FHE_CT. -/
def isFheTag : Option Js → Bool
  | some (.jStr s) => s == "FHE_CT"
  | _ => false

/-- Model of FHESimulator.decrypt (src/server/lib/fhe.ts lines 32 to 43).
The code parses the ciphertext string, throws unless ct.type is the string
FHE_CT, base64-decodes ct.data, parses the bytes as JSON and returns json.v;
any exception inside is caught and re-thrown as Decryption Failed.  A
payload parsing to JSON null fails because the property access json.v
throws on null.  Note the returned json.v is otherwise not checked: a
payload without a v property returns undefined (modelled as .ok none)
rather than failing. -/
def decrypt : CtWire → Except FheError (Option Js)
  | .notJson => .error .decryptionFailed
  | .isNull => .error .decryptionFailed
  | .value t d _ =>
    if isFheTag t then
      match d with
      | .invalid => .error .decryptionFailed
      | .content .notJson => .error .decryptionFailed
      | .content (.val .jNull) => .error .decryptionFailed
      | .content (.val j) => .ok (propV j)
    else .error .decryptionFailed

/-- Model of FHESimulator.encrypt (src/server/lib/fhe.ts lines 20 to 30).
The code builds the JSON object with properties v (the plaintext) and r (a
fresh 8-byte random hex nonce), base64-encodes it into data, draws an
independent 16-byte random hex noise tag, and serialises the envelope with
type FHE_CT.  The two random draws are explicit arguments r and noise. -/
def encrypt (v : Value) (r : String) (noise : String) : CtWire :=
  .value (some (.jStr "FHE_CT"))
    (.content (.val (.jObj [("v", v.toJs), ("r", .jStr r)])))
    (some (.jStr noise))

/-- JavaScript whitespace trimmed by ToNumber around a numeric string: the
ASCII forms, no-break space, byte order mark, and the Unicode space and
line separators. -/
def isJsWhitespace (c : Char) : Bool :=
  c == ' ' || c == '\t' || c == '\n' || c == '\r' || c == '\x0b' || c == '\x0c' ||
  c == '\u00A0' || c == '\uFEFF' || c == '\u1680' ||
  (0x2000 ≤ c.toNat && c.toNat ≤ 0x200A) ||
  c == '\u2028' || c == '\u2029' || c == '\u202F' || c == '\u205F' || c == '\u3000'

/-- Value of a list of decimal digits. -/
def decDigitsVal (l : List Char) : Nat :=
  l.foldl (fun acc c => acc * 10 + (c.toNat - 48)) 0

/-- Hexadecimal digit test. -/
def isHexDigit (c : Char) : Bool :=
  c.isDigit || ('a' ≤ c && c ≤ 'f') || ('A' ≤ c && c ≤ 'F')

/-- Value of one hexadecimal digit. -/
def hexDigitVal (c : Char) : Nat :=
  if c.isDigit then c.toNat - 48
  else if 'a' ≤ c && c ≤ 'f' then c.toNat - 87
  else c.toNat - 55

/-- Value of a non-empty digit string in the given radix; none when it is
empty or holds a character outside the digit alphabet. -/
def radixVal? (radix : Nat) (goodDigit : Char → Bool) (val : Char → Nat)
    (l : List Char) : Option Nat :=
  if !l.isEmpty && l.all goodDigit then
    some (l.foldl (fun acc c => acc * radix + val c) 0)
  else none

/-- Splits a numeric literal at the exponent marker e or E, when present. -/
def splitExp (l : List Char) : List Char × Option (List Char) :=
  match l.span (fun c => !(c == 'e' || c == 'E')) with
  | (m, []) => (m, none)
  | (m, _ :: rest) => (m, some rest)

/-- The exponent part of a decimal literal: an optional sign followed by at
least one decimal digit. -/
def parseExp? : List Char → Option Int
  | [] => none
  | '+' :: ds =>
    if !ds.isEmpty && ds.all Char.isDigit then some ((decDigitsVal ds : Nat) : Int)
    else none
  | '-' :: ds =>
    if !ds.isEmpty && ds.all Char.isDigit then
      some (-((decDigitsVal ds : Nat) : Int))
    else none
  | ds => if ds.all Char.isDigit then some ((decDigitsVal ds : Nat) : Int) else none

/-- The mantissa of a decimal literal — digits, digits dot optional digits,
or dot digits — read exactly as a numerator paired with a power-of-ten
denominator. -/
def parseMantissa? (l : List Char) : Option (Int × Nat) :=
  match l.span Char.isDigit with
  | (ip, []) => if ip.isEmpty then none else some ((decDigitsVal ip : Nat), 1)
  | (ip, '.' :: rest) =>
    if rest.all Char.isDigit && !(ip.isEmpty && rest.isEmpty) then
      some (((decDigitsVal ip * 10 ^ rest.length + decDigitsVal rest : Nat) : Int),
        10 ^ rest.length)
    else none
  | _ => none

/-- An unsigned decimal literal with optional fraction and exponent, or the
Infinity keyword, as an exact rational.  An infinite result carries no
finite value and is mapped to none: like NaN it compares equal to no number
in the loose equality below, which is the only use made of it. -/
def decLiteralUnsigned? (l : List Char) : Option ℚ :=
  if l = "Infinity".toList then none
  else
    match splitExp l with
    | (m, none) => (parseMantissa? m).map (fun q => mkRat q.1 q.2)
    | (m, some ed) =>
      match parseMantissa? m, parseExp? ed with
      | some q, some (.ofNat e) => some (mkRat (q.1 * ((10 ^ e : Nat) : Int)) q.2)
      | some q, some (.negSucc e) => some (mkRat q.1 (q.2 * 10 ^ (e + 1)))
      | _, _ => none

/-- An optionally signed decimal literal or Infinity keyword. -/
def decLiteral? (l : List Char) : Option ℚ :=
  match l with
  | '+' :: rest => decLiteralUnsigned? rest
  | '-' :: rest => (decLiteralUnsigned? rest).map (fun q => mkRat (-q.num) q.den)
  | _ => decLiteralUnsigned? l

/-- Model of JavaScript ToNumber on a string, per the StringNumericLiteral
grammar: whitespace is trimmed, an empty remainder is 0, an unsigned 0x,
0o or 0b prefix reads the digits in that radix, and otherwise an optionally
signed decimal literal with optional fraction and exponent (or Infinity) is
read.  The value is exact (see the module comment: numbers carry no
binary64 rounding); none stands for a result — NaN or an infinity — that
the loose equality treats as equal to no number. -/
def jsToNumber? (s : String) : Option ℚ :=
  let t := ((s.toList.dropWhile isJsWhitespace).reverse.dropWhile
    isJsWhitespace).reverse
  match t with
  | [] => some 0
  | '0' :: x :: ds =>
    if x == 'x' || x == 'X' then
      (radixVal? 16 isHexDigit hexDigitVal ds).map (fun v => (v : ℚ))
    else if x == 'o' || x == 'O' then
      (radixVal? 8 (fun c => '0' ≤ c && c ≤ '7') (fun c => c.toNat - 48) ds).map
        (fun v => (v : ℚ))
    else if x == 'b' || x == 'B' then
      (radixVal? 2 (fun c => c == '0' || c == '1') (fun c => c.toNat - 48) ds).map
        (fun v => (v : ℚ))
    else decLiteral? t
  | _ => decLiteral? t

/-- ToNumber on a boolean, applied by loose equality before comparing. -/
def jsNormBool : Js → Js
  | .jBool b => .jNum (if b then 1 else 0)
  | j => j

/-- Model of the JavaScript loose equality v1 == v2 used by
FHESimulator.homomorphicEquality (src/server/lib/fhe.ts line 51), on
non-undefined operands.  Numbers and strings of the same type compare by
value; a number against a string compares the number with ToNumber of the
string; booleans are first converted by ToNumber; null equals only null
(and undefined, handled by jsEq).  The two operands always come from two
separate JSON.parse calls, so object or array operands are never the same
reference and compare unequal; ToPrimitive coercion of an object or array
against a primitive is not modelled and conservatively yields false, and no
theorem in this file depends on that branch. -/
def jsEqJs (a b : Js) : Bool :=
  match jsNormBool a, jsNormBool b with
  | .jNull, .jNull => true
  | .jNum x, .jNum y => x == y
  | .jStr x, .jStr y => x == y
  | .jNum x, .jStr y => jsToNumber? y == some ((x : Int) : ℚ)
  | .jStr x, .jNum y => jsToNumber? x == some ((y : Int) : ℚ)
  | _, _ => false

/-- Loose equality on possibly-undefined operands: undefined equals exactly
undefined and null. -/
def jsEq : Option Js → Option Js → Bool
  | none, none => true
  | none, some .jNull => true
  | some .jNull, none => true
  | none, some _ => false
  | some _, none => false
  | some a, some b => jsEqJs a b

/-- Loose equality restricted to representable plaintexts. -/
def jsEqVal (a b : Value) : Bool :=
  jsEq (some a.toJs) (some b.toJs)

/-- Model of FHESimulator.homomorphicEquality (src/server/lib/fhe.ts lines
47 to 56): decrypt both operands, compare with loose equality, encrypt the
resulting bit.  The randomness of the fresh encryption is explicit. -/
def homomorphicEquality (ct1 ct2 : CtWire) (r noise : String) :
    Except FheError CtWire :=
  match decrypt ct1 with
  | .error e => .error e
  | .ok v1 =>
    match decrypt ct2 with
    | .error e => .error e
    | .ok v2 =>
      .ok (encrypt (.vInt (if jsEq v1 v2 then 1 else 0)) r noise)

theorem decrypt_encrypt (v : Value) (r n : String) :
    decrypt (encrypt v r n) = .ok (some v.toJs) := rfl

theorem homomorphicEquality_encrypt (a b : Value) (r1 n1 r2 n2 r n : String) :
    homomorphicEquality (encrypt a r1 n1) (encrypt b r2 n2) r n =
      .ok (encrypt (.vInt (if jsEqVal a b then 1 else 0)) r n) := rfl

/-- Own-property lookup on a JavaScript object modelled as an association
list: the iteration of Object.entries(encryptedQuery) and the own keys of
the parsed storedData both form an object with no duplicate keys, so find?
returns the unique binding. -/
def lookupField (l : List (String × α)) (k : String) : Option α :=
  (l.find? (fun p => p.1 == k)).map (fun p => p.2)

/-- Property names every plain JavaScript object — including the result of
JSON.parse — inherits from Object.prototype.  The bracket access
storedData[key] yields a truthy value (a built-in function, or for the
dunder proto accessor the prototype object itself) for each of these even
when the key is not an own stored attribute. -/
def objectPrototypeMembers : List String :=
  ["constructor", "hasOwnProperty", "isPrototypeOf", "propertyIsEnumerable",
   "toLocaleString", "toString", "valueOf", "__defineGetter__",
   "__defineSetter__", "__lookupGetter__", "__lookupSetter__", "__proto__"]

/-- Boolean test for a name inherited from Object.prototype. -/
def isObjectPrototypeMember (key : String) : Bool :=
  objectPrototypeMembers.contains key

/-- Model of the truthiness test on storedData[key] in the verify handler,
paired with the value the handler then uses.  An own key yields the stored
ciphertext string (always truthy: stored ciphertexts are non-empty JSON
strings).  A name inherited from Object.prototype yields the truthy
built-in function or prototype object; passing that value where a
ciphertext string is expected stringifies it to a non-JSON form, which is
exactly CtWire.notJson.  Every other name yields undefined, which is falsy
and routes to the missing-field branch. -/
def bundleAccess (bundle : List (String × CtWire)) (key : String) :
    Option CtWire :=
  match lookupField bundle key with
  | some ct => some ct
  | none =>
    if isObjectPrototypeMember key then some CtWire.notJson else none

/-- Encryption of a whole attribute map, one fresh randomness pair per field:
rng 0 supplies the first field, and the tail continues with the shifted
stream.  Both the registration handler (encrypting the four attributes) and
the demo client (encrypting each query field) follow this shape. -/
def encryptBundle : List (String × Value) → (Nat → String × String) →
    List (String × CtWire)
  | [], _ => []
  | (k, v) :: rest, rng =>
    (k, encrypt v (rng 0).1 (rng 0).2) :: encryptBundle rest (fun j => rng (j + 1))

/-- The strict comparison isMatch === 0 of the verify handler: true exactly
when the decrypted value is the number 0. -/
def isStrictZero : Option Js → Bool
  | some (.jNum n) => n == 0
  | _ => false

/-- Model of the per-field comparison loop of the verify handler
(src/unnamed/part_000 lines 70 to 87).  For each (key, encQueryVal) of the
query object in order: when storedData[key] is truthy — an own stored
ciphertext, or a member inherited from Object.prototype, see bundleAccess —
the handler runs homomorphicEquality(encQueryVal, storedVal), decrypts the
encrypted bit (simulating the circuit), and clears overallMatch when the
bit is strictly 0; when the access yields undefined, it sets overallMatch
to 0 and continues without touching the query ciphertext.  Thrown
decryption errors propagate.  The randomness stream rng feeds the fresh
encryption inside each comparison and is shifted at every iteration. -/
def verifyFields (bundle : List (String × CtWire)) :
    List (String × CtWire) → Int → (Nat → String × String) →
    Except FheError Int
  | [], overall, _ => .ok overall
  | (key, qct) :: rest, overall, rng =>
    match bundleAccess bundle key with
    | some sct =>
      match homomorphicEquality qct sct (rng 0).1 (rng 0).2 with
      | .error e => .error e
      | .ok encMatch =>
        match decrypt encMatch with
        | .error e => .error e
        | .ok isMatch =>
          verifyFields bundle rest
            (if isStrictZero isMatch then 0 else overall)
            (fun j => rng (j + 1))
    | none => verifyFields bundle rest 0 (fun j => rng (j + 1))

/-- The verify handler after the record is fetched: overallMatch starts at
1, the loop above processes every query field, and the final value is
re-encrypted with fresh randomness rF, nF as the encryptedResult. -/
def verifyBundle (bundle query : List (String × CtWire))
    (rng : Nat → String × String) (rF nF : String) :
    Except FheError CtWire :=
  match verifyFields bundle query 1 rng with
  | .error e => .error e
  | .ok overall => .ok (encrypt (.vInt overall) rF nF)

/-- A persisted identity row (src/shared/schema.ts lines 6 to 11): serial id,
unique passport hash, and the encrypted attribute bundle, stored as a JSON
blob and modelled here in parsed form.  The created_at column is
informational only and not modelled. -/
structure IdentityRecord where
  id : Int
  passportHash : String
  encryptedData : List (String × CtWire)
deriving Repr

/-- Responses of the verify route: 200 with the encrypted result, 404 when
the hash is unregistered, 400 when parsing or decryption throws. -/
inductive VerifyOutcome where
  | success (encryptedResult : CtWire)
  | notFound
  | badRequest
deriving Repr

/-- Model of the verify route handler (src/unnamed/part_000 lines 45 to 97):
look the record up by passport hash, answer 404 when absent, otherwise run
the comparison loop and return the encrypted aggregate; any thrown error is
answered as a 400 with the error message. -/
def verifyHandler (store : List IdentityRecord) (passportHash : String)
    (query : List (String × CtWire)) (rng : Nat → String × String)
    (rF nF : String) : VerifyOutcome :=
  match (store.find? (fun rec => rec.passportHash == passportHash)) with
  | none => .notFound
  | some rec =>
    match verifyBundle rec.encryptedData query rng rF nF with
    | .ok ct => .success ct
    | .error _ => .badRequest

/-- Length of a string in UTF-16 code units, the unit of the JavaScript
String length property that zod min checks: characters beyond the basic
multilingual plane count as a surrogate pair. -/
def utf16Len (s : String) : Nat :=
  (s.toList.map (fun c => if 0x10000 ≤ c.toNat then 2 else 1)).sum

/-- Model of the zod regex for expiryDate (src/shared/schema.ts line 28):
the anchored pattern of four digits, a hyphen, two digits, a hyphen and two
digits. -/
def expiryDateOk (s : String) : Bool :=
  match s.toList with
  | [y1, y2, y3, y4, h1, m1, m2, h2, d1, d2] =>
    y1.isDigit && y2.isDigit && y3.isDigit && y4.isDigit && (h1 == '-') &&
    m1.isDigit && m2.isDigit && (h2 == '-') && d1.isDigit && d2.isDigit
  | _ => false

/-- One zod issue: the offending field (the issue path) and its message. -/
structure ZodIssue where
  field : String
  message : String
deriving Repr, DecidableEq

/-- The raw registration request body (src/shared/schema.ts lines 24 to 30). -/
structure RegisterInput where
  fullName : String
  age : Int
  passportId : String
  expiryDate : String
  verificationCode : String
deriving Repr, DecidableEq

/-- Model of registerIdentitySchema.parse: zod checks every field of the
object schema in declaration order and collects one issue per violated
check, with the messages of src/shared/schema.ts. -/
def registerIssues (i : RegisterInput) : List ZodIssue :=
  (if 1 ≤ utf16Len i.fullName then [] else [⟨"fullName", "Name is required"⟩]) ++
  (if 18 ≤ i.age then [] else [⟨"age", "Must be 18+"⟩]) ++
  (if 5 ≤ utf16Len i.passportId then [] else [⟨"passportId", "Invalid Passport ID"⟩]) ++
  (if expiryDateOk i.expiryDate then [] else [⟨"expiryDate", "Format: YYYY-MM-DD"⟩]) ++
  (if 4 ≤ utf16Len i.verificationCode then [] else [⟨"verificationCode", "Code required"⟩])

/-- The four attributes the register handler encrypts, in source order; the
handler wraps the age in Number, which is the identity on a number. -/
def regFields (i : RegisterInput) : List (String × Value) :=
  [("fullName", .vStr i.fullName), ("age", .vInt i.age),
   ("expiryDate", .vStr i.expiryDate), ("verificationCode", .vStr i.verificationCode)]

/-- The encrypted attribute bundle the register handler serialises. -/
def mkBundle (i : RegisterInput) (rng : Nat → String × String) :
    List (String × CtWire) :=
  encryptBundle (regFields i) rng

/-- Responses of the register route: 201 with the new id, or 400 carrying
the zod issues. -/
inductive RegisterOutcome where
  | created (id : Int)
  | validationError (issues : List ZodIssue)
deriving Repr, DecidableEq

/-- Model of the register route handler (src/unnamed/part_000 lines 16 to
42): validate the body, hash the passport id with the digest function
hashHex (Node createHash sha256, an external primitive passed explicitly
here), encrypt the four sensitive attributes, persist the record, and
answer 201 with the id the store assigned; a zod failure is answered as a
400.  The pair returned exposes the response together with the record
handed to the storage collaborator, so theorems can speak about what is
persisted. -/
def registerHandler (hashHex : String → String) (newId : Int)
    (rng : Nat → String × String) (i : RegisterInput) :
    RegisterOutcome × Option IdentityRecord :=
  match registerIssues i with
  | [] =>
    (.created newId,
     some { id := newId, passportHash := hashHex i.passportId,
            encryptedData := mkBundle i rng })
  | issues => (.validationError issues, none)

/-- A constant randomness stream for concrete instances. -/
def constRng : Nat → String × String := fun _ => ("r0", "n0")

/-- One query field matches the stored bundle when the key is present and the
plaintexts are loosely equal. -/
def fieldMatches (storedVals : List (String × Value)) (p : String × Value) : Bool :=
  match lookupField storedVals p.1 with
  | some sv => jsEqVal p.2 sv
  | none => false

theorem lookupField_encryptBundle (vals : List (String × Value))
    (rng : Nat → String × String) (k : String) :
    ∃ r n, lookupField (encryptBundle vals rng) k =
      (lookupField vals k).map (fun v => encrypt v r n) := by
  induction vals generalizing rng with
  | nil => exact ⟨"", "", rfl⟩
  | cons p rest ih =>
    obtain ⟨k0, v0⟩ := p
    cases h : (k0 == k) with
    | true =>
      refine ⟨(rng 0).1, (rng 0).2, ?_⟩
      simp [encryptBundle, lookupField, List.find?_cons_of_pos, h]
    | false =>
      obtain ⟨r, n, hr⟩ := ih (fun j => rng (j + 1))
      refine ⟨r, n, ?_⟩
      simpa [encryptBundle, lookupField, List.find?_cons_of_neg, h] using hr

theorem verifyFields_encryptBundle (storedVals : List (String × Value))
    (rngS : Nat → String × String) (queryVals : List (String × Value))
    (hclean : ∀ p ∈ queryVals, lookupField storedVals p.1 = none →
      isObjectPrototypeMember p.1 = false) :
    ∀ (rngQ rngV : Nat → String × String) (ov : Int),
    verifyFields (encryptBundle storedVals rngS) (encryptBundle queryVals rngQ)
        ov rngV =
      .ok (if queryVals.all (fieldMatches storedVals) then ov else 0) := by
  induction queryVals with
  | nil => intro rngQ rngV ov; simp [encryptBundle, verifyFields]
  | cons p rest ih =>
    intro rngQ rngV ov
    obtain ⟨k, qv⟩ := p
    obtain ⟨r, n, hr⟩ := lookupField_encryptBundle storedVals rngS k
    have ihr := ih (fun p2 hp2 => hclean p2 (List.mem_cons_of_mem _ hp2))
    cases hlk : lookupField storedVals k with
    | none =>
      rw [hlk] at hr; simp only [Option.map_none'] at hr
      have hnp : isObjectPrototypeMember k = false :=
        hclean (k, qv) (List.mem_cons_self _ _) hlk
      have hba : bundleAccess (encryptBundle storedVals rngS) k = none := by
        simp [bundleAccess, hr, hnp]
      simp [encryptBundle, verifyFields, hba, ihr, fieldMatches, hlk]
    | some sv =>
      rw [hlk] at hr; simp only [Option.map_some'] at hr
      have hba : bundleAccess (encryptBundle storedVals rngS) k =
          some (encrypt sv r n) := by
        simp [bundleAccess, hr]
      have hfm : fieldMatches storedVals (k, qv) = jsEqVal qv sv := by
        simp [fieldMatches, hlk]
      cases hjs : jsEqVal qv sv with
      | true =>
        have hcomb : (fieldMatches storedVals (k, qv) &&
            rest.all (fieldMatches storedVals)) =
            rest.all (fieldMatches storedVals) := by
          rw [hfm, hjs, Bool.true_and]
        simp only [encryptBundle, verifyFields, hba, homomorphicEquality_encrypt,
          hjs, decrypt_encrypt, isStrictZero, Value.toJs, ihr, List.all_cons,
          hcomb]
        simp
      | false =>
        simp [encryptBundle, verifyFields, hba, homomorphicEquality_encrypt,
          hjs, decrypt_encrypt, isStrictZero, Value.toJs, ihr,
          List.all_cons, hfm]

theorem all_fieldMatches_iff (storedVals queryVals : List (String × Value)) :
    queryVals.all (fieldMatches storedVals) = true ↔
      ∀ p ∈ queryVals, ∃ sv,
        lookupField storedVals p.1 = some sv ∧ jsEqVal p.2 sv = true := by
  rw [List.all_eq_true]
  constructor
  · intro h p hp
    have hm := h p hp
    simp only [fieldMatches] at hm
    cases hlk : lookupField storedVals p.1 with
    | none => rw [hlk] at hm; cases hm
    | some sv => rw [hlk] at hm; exact ⟨sv, rfl, hm⟩
  · intro h p hp
    obtain ⟨sv, hsv, heq⟩ := h p hp
    simp only [fieldMatches]
    rw [hsv]; exact heq

/-- The registration scenario of the spec, used as a concrete instance. -/
def amjadInput : RegisterInput :=
  { fullName := "Amjad Masad", age := 35, passportId := "A1234567",
    expiryDate := "2030-01-01", verificationCode := "1234" }

/-- A concrete registered record for instances: the bundle of amjadInput
under the constant randomness stream. -/
def demoRecord : IdentityRecord :=
  { id := 1, passportHash := "deadbeef", encryptedData := mkBundle amjadInput constRng }

/-- C4: for every representable plaintext v (string or integer) and any
randomness, decrypting a fresh encryption of v returns exactly the JSON
value embedding v, and that value reads back as the same tagged plaintext:
both value and type are preserved, a number never comes back stringified. -/
theorem decrypt_encrypt_roundtrip_exact (v : Value) (r n : String) :
    decrypt (encrypt v r n) = .ok (some v.toJs) ∧ v.toJs.toValue = some v :=
  ⟨rfl, by cases v <;> rfl⟩

/-- C10: decrypt never reads the noise field, so two parsed envelopes that
agree on the type tag and the data field decrypt identically, however their
noise fields differ. -/
theorem decrypt_independent_of_noise (t : Option Js) (d : DataField)
    (n1 n2 : Option Js) :
    decrypt (.value t d n1) = decrypt (.value t d n2) := rfl

/-- The data field of a parsed envelope, when the wire is an envelope. -/
def ctData : CtWire → Option DataField
  | .value _ d _ => some d
  | _ => none

/-- The noise field of a parsed envelope, when the wire is an envelope. -/
def ctNoise : CtWire → Option (Option Js)
  | .value _ _ n => some n
  | _ => none

/-- C8: probabilistic encryption.  The payload binds the plaintext to the
fresh nonce and the noise tag is drawn independently, so whenever the two
random nonces differ the payloads differ and whenever the two noise draws
differ the noise fields differ; two separate calls therefore produce
byte-distinct envelopes up to collision of the random draws. -/
theorem encrypt_probabilistic_distinct (v : Value) (r1 n1 r2 n2 : String)
    (hr : r1 ≠ r2) (hn : n1 ≠ n2) :
    ctData (encrypt v r1 n1) ≠ ctData (encrypt v r2 n2) ∧
    ctNoise (encrypt v r1 n1) ≠ ctNoise (encrypt v r2 n2) := by
  constructor
  · intro h
    simp only [ctData, encrypt, Option.some.injEq, DataField.content.injEq,
      PayloadWire.val.injEq, Js.jObj.injEq, List.cons.injEq, Prod.mk.injEq,
      Js.jStr.injEq] at h
    exact hr h.2.1.2
  · intro h
    simp only [ctNoise, encrypt, Option.some.injEq, Js.jStr.injEq] at h
    exact hn h

/-- Witness for C8 at concrete randomness. -/
theorem encrypt_probabilistic_distinct_witness :
    ctData (encrypt (.vInt 7) "aa" "xx") ≠ ctData (encrypt (.vInt 7) "bb" "yy") ∧
    ctNoise (encrypt (.vInt 7) "aa" "xx") ≠ ctNoise (encrypt (.vInt 7) "bb" "yy") :=
  encrypt_probabilistic_distinct (.vInt 7) "aa" "xx" "bb" "yy"
    (by decide) (by decide)

/-- C3 (amended): the equality gate computes the JavaScript loose equality
of the two plaintexts, not equality of value and type.  The encrypted bit
decrypts to 1 exactly when the operands are loosely equal; operands of the
same type compare exactly by value, and a number equals a string exactly
when ToNumber of the string — whitespace-trimmed, decimal with optional
sign, fraction and exponent, or an unsigned 0x / 0o / 0b radix form, with
NaN and infinite results equal to nothing — has that numeric value. -/
theorem field_equals_is_loose_equality (a b : Value) (r1 n1 r2 n2 r n : String) :
    (homomorphicEquality (encrypt a r1 n1) (encrypt b r2 n2) r n).map decrypt =
      .ok (.ok (some (.jNum (if jsEqVal a b then 1 else 0)))) ∧
    (∀ s1 s2 : String, jsEqVal (.vStr s1) (.vStr s2) = (s1 == s2)) ∧
    (∀ m k : Int, jsEqVal (.vInt m) (.vInt k) = (m == k)) ∧
    (∀ (m : Int) (s : String),
      jsEqVal (.vInt m) (.vStr s) = (jsToNumber? s == some (m : ℚ)) ∧
      jsEqVal (.vStr s) (.vInt m) = (jsToNumber? s == some (m : ℚ))) := by
  refine ⟨?_, fun s1 s2 => rfl, fun m k => rfl, fun m s => ⟨rfl, rfl⟩⟩
  rw [homomorphicEquality_encrypt]
  rfl

/-- C3 counterexample: the number 35 and the string 35 are distinct
plaintexts (different types), yet the equality gate declares them equal:
the encrypted result decrypts to 1, because the implementation compares
with the loose JavaScript equality, which coerces the string by ToNumber —
so the fractional, radix and exponent spellings of 35 also compare equal
to the number 35, while a non-numeric string does not. -/
theorem field_equals_type_coercion_cex :
    (homomorphicEquality (encrypt (.vInt 35) "r1" "n1")
        (encrypt (.vStr "35") "r2" "n2") "r3" "n3").map decrypt =
      .ok (.ok (some (.jNum 1))) ∧
    Value.vInt 35 ≠ Value.vStr "35" ∧
    jsEqVal (.vInt 35) (.vStr "35.0") = true ∧
    jsEqVal (.vInt 35) (.vStr "0x23") = true ∧
    jsEqVal (.vInt 35) (.vStr "3.5e1") = true ∧
    jsEqVal (.vInt 35) (.vStr " 35 ") = true ∧
    jsEqVal (.vInt 35) (.vStr "abc") = false ∧
    jsEqVal (.vInt 35) (.vStr "36") = false :=
  ⟨rfl, by decide, by decide, by decide, by decide, by decide, by decide,
   by decide⟩

/-- C1: evaluating the verify handler on an empty encrypted query against
any registered record.  The comparison loop runs zero iterations, so
overallMatch keeps its initial value 1 and the handler answers 200 with an
encryption of 1: no InvalidQuery error exists in the code, and a successful
encrypted match is returned although no field comparison was performed. -/
theorem verify_empty_query_returns_encrypted_one (store : List IdentityRecord)
    (passportHash : String) (rec : IdentityRecord)
    (rng : Nat → String × String) (rF nF : String)
    (hfound : store.find? (fun rc => rc.passportHash == passportHash) = some rec) :
    verifyHandler store passportHash [] rng rF nF =
      .success (encrypt (.vInt 1) rF nF) ∧
    decrypt (encrypt (.vInt 1) rF nF) = .ok (some (.jNum 1)) := by
  constructor
  · simp [verifyHandler, hfound, verifyBundle, verifyFields]
  · rfl

/-- Witness for C1 on a concrete store holding one registered record. -/
theorem verify_empty_query_returns_encrypted_one_witness :
    verifyHandler [demoRecord] "deadbeef" [] constRng "rf" "nf" =
      .success (encrypt (.vInt 1) "rf" "nf") ∧
    decrypt (encrypt (.vInt 1) "rf" "nf") = .ok (some (.jNum 1)) :=
  verify_empty_query_returns_encrypted_one [demoRecord] "deadbeef" demoRecord
    constRng "rf" "nf" rfl

theorem verifyBundle_encryptBundle_decrypts (storedVals queryVals : List (String × Value))
    (rngS rngQ rngV : Nat → String × String) (rF nF : String)
    (hclean : ∀ p ∈ queryVals, lookupField storedVals p.1 = none →
      isObjectPrototypeMember p.1 = false) :
    (verifyBundle (encryptBundle storedVals rngS) (encryptBundle queryVals rngQ)
        rngV rF nF).map decrypt =
      .ok (.ok (some (.jNum
        (if queryVals.all (fieldMatches storedVals) then 1 else 0)))) := by
  rw [verifyBundle,
    verifyFields_encryptBundle storedVals rngS queryVals hclean rngQ rngV 1]
  cases hq : queryVals.all (fieldMatches storedVals) <;> simp [hq] <;> rfl

/-- C2 (amended): for every registered record (the bundle built by the
register handler from input i) and every non-empty encrypted query over
fields present in the stored bundle, the verification completes and the
returned encryptedResult decrypts to 1 exactly when every queried field is
loosely equal (JavaScript ==) to the stored plaintext, and to 0 otherwise.
Same-type plaintexts compare exactly by value, so a query with age 36
against stored age 35 decrypts to 0; but a numeric string query also
matches the stored number of the same value. -/
theorem verify_one_iff_every_field_matches (i : RegisterInput)
    (queryVals : List (String × Value))
    (rngS rngQ rngV : Nat → String × String) (rF nF : String)
    (hpres : ∀ p ∈ queryVals, (lookupField (regFields i) p.1).isSome = true)
    (hne : queryVals ≠ []) :
    ((verifyBundle (mkBundle i rngS) (encryptBundle queryVals rngQ) rngV rF nF).map
        decrypt = .ok (.ok (some (.jNum 1))) ↔
      ∀ p ∈ queryVals, ∃ sv, lookupField (regFields i) p.1 = some sv ∧
        jsEqVal p.2 sv = true) ∧
    ((verifyBundle (mkBundle i rngS) (encryptBundle queryVals rngQ) rngV rF nF).map
        decrypt = .ok (.ok (some (.jNum 1))) ∨
     (verifyBundle (mkBundle i rngS) (encryptBundle queryVals rngQ) rngV rF nF).map
        decrypt = .ok (.ok (some (.jNum 0)))) := by
  have hclean : ∀ p ∈ queryVals, lookupField (regFields i) p.1 = none →
      isObjectPrototypeMember p.1 = false := by
    intro p hp hnone
    have hs := hpres p hp
    rw [hnone] at hs
    simp at hs
  have hres := verifyBundle_encryptBundle_decrypts (regFields i) queryVals
    rngS rngQ rngV rF nF hclean
  rw [mkBundle] at *
  constructor
  · rw [hres]
    cases hq : queryVals.all (fieldMatches (regFields i)) with
    | true =>
      exact iff_of_true (by simp)
        ((all_fieldMatches_iff (regFields i) queryVals).mp hq)
    | false =>
      refine iff_of_false (by simp) ?_
      intro hall
      rw [(all_fieldMatches_iff (regFields i) queryVals).mpr hall] at hq
      cases hq
  · rw [hres]
    cases hq : queryVals.all (fieldMatches (regFields i)) with
    | true => left; simp
    | false => right; simp

/-- Witness for C2 on the registration scenario: a two-field query equal to
the stored fullName and age decrypts to 1, characterised by the iff. -/
theorem verify_one_iff_every_field_matches_witness :
    ((verifyBundle (mkBundle amjadInput constRng)
        (encryptBundle [("age", Value.vInt 35), ("fullName", Value.vStr "Amjad Masad")]
          constRng) constRng "rf" "nf").map
        decrypt = .ok (.ok (some (.jNum 1))) ↔
      ∀ p ∈ [("age", Value.vInt 35), ("fullName", Value.vStr "Amjad Masad")],
        ∃ sv, lookupField (regFields amjadInput) p.1 = some sv ∧
          jsEqVal p.2 sv = true) ∧
    ((verifyBundle (mkBundle amjadInput constRng)
        (encryptBundle [("age", Value.vInt 35), ("fullName", Value.vStr "Amjad Masad")]
          constRng) constRng "rf" "nf").map
        decrypt = .ok (.ok (some (.jNum 1))) ∨
     (verifyBundle (mkBundle amjadInput constRng)
        (encryptBundle [("age", Value.vInt 35), ("fullName", Value.vStr "Amjad Masad")]
          constRng) constRng "rf" "nf").map
        decrypt = .ok (.ok (some (.jNum 0)))) :=
  verify_one_iff_every_field_matches amjadInput
    [("age", Value.vInt 35), ("fullName", Value.vStr "Amjad Masad")]
    constRng constRng constRng "rf" "nf" (by decide) (by decide)

/-- C2 counterexample: against the stored record of the registration
scenario (age stored as the number 35), a query whose age field carries the
string 35 — a plaintext different from the stored one in type — still
decrypts to 1, because the gate applies loose equality.  This refutes the
claim that the result decrypts to 1 only when every queried plaintext
equals the stored plaintext. -/
theorem verify_type_coercion_cex :
    (verifyBundle (mkBundle amjadInput constRng)
        (encryptBundle [("age", Value.vStr "35")] constRng) constRng "rf" "nf").map
      decrypt = .ok (.ok (some (.jNum 1))) ∧
    lookupField (regFields amjadInput) "age" = some (Value.vInt 35) ∧
    Value.vStr "35" ≠ Value.vInt 35 :=
  ⟨rfl, rfl, by decide⟩

/-- Missing-field behaviour for attribute names that do not collide with
Object.prototype: the absent field contributes a deterministic mismatch
without error and the aggregate decrypts to 0 whatever the other fields. -/
theorem verify_missing_nonproto_yields_zero
    (storedVals queryVals : List (String × Value))
    (rngS rngQ rngV : Nat → String × String) (rF nF : String)
    (hclean : ∀ p ∈ queryVals, lookupField storedVals p.1 = none →
      isObjectPrototypeMember p.1 = false)
    (hmiss : ∃ p ∈ queryVals, lookupField storedVals p.1 = none) :
    (verifyBundle (encryptBundle storedVals rngS) (encryptBundle queryVals rngQ)
        rngV rF nF).map decrypt = .ok (.ok (some (.jNum 0))) := by
  have hres := verifyBundle_encryptBundle_decrypts storedVals queryVals
    rngS rngQ rngV rF nF hclean
  have hallf : queryVals.all (fieldMatches storedVals) = false := by
    obtain ⟨p, hp, hnone⟩ := hmiss
    cases hq : queryVals.all (fieldMatches storedVals) with
    | false => rfl
    | true =>
      obtain ⟨sv, hsv, -⟩ := (all_fieldMatches_iff storedVals queryVals).mp hq p hp
      rw [hnone] at hsv
      cases hsv
  rw [hallf] at hres
  simpa using hres

/-- C5: evaluation of the verify loop at the failing input.  The attribute
name toString is absent from every stored bundle, yet a query for it does
not contribute a deterministic 0: the truthiness test on storedData sees
the Object.prototype-inherited toString function, takes the present branch,
and decryption of the stringified function throws, so the whole
verification fails with Decryption Failed (a 400 response) instead of
completing with an encrypted 0.  A query for an absent name that does not
collide with Object.prototype (here nickname, next to a matching age)
behaves as the claim demands and decrypts to 0 — isolating the divergence
to the inherited names. -/
theorem verify_prototype_member_query_throws :
    lookupField (regFields amjadInput) "toString" = none ∧
    verifyBundle (mkBundle amjadInput constRng)
      (encryptBundle [("toString", Value.vStr "x")] constRng) constRng
      "rf" "nf" = .error .decryptionFailed ∧
    (verifyBundle (mkBundle amjadInput constRng)
      (encryptBundle [("nickname", Value.vStr "x"), ("age", Value.vInt 35)]
        constRng) constRng "rf" "nf").map decrypt =
      .ok (.ok (some (.jNum 0))) :=
  ⟨rfl, rfl, rfl⟩

theorem isFheTag_false_iff (t : Option Js) :
    isFheTag t = false ↔ t ≠ some (.jStr "FHE_CT") := by
  cases t with
  | none => simp [isFheTag]
  | some j => cases j <;> simp [isFheTag]

/-- Description, following the words of the spec, of a structurally invalid
ciphertext envelope: the input is not parseable as the envelope shape (not
JSON, or JSON null so that property access throws), the scheme tag differs
from the FHE_CT marker, or the embedded payload cannot be decoded to a JSON
document (the data field is not a decodable string, its bytes are not JSON,
or they parse to null so that the value access throws). -/
def structurallyInvalid (w : CtWire) : Prop :=
  w = .notJson ∨ w = .isNull ∨
  ∃ t d nz, w = .value t d nz ∧
    (t ≠ some (.jStr "FHE_CT") ∨ d = .invalid ∨ d = .content .notJson ∨
     d = .content (.val .jNull))

theorem verifyFields_error_of_bad_pair (bundle : List (String × CtWire)) :
    ∀ (query : List (String × CtWire)) (ov : Int) (rng : Nat → String × String)
      (k : String) (qct sct : CtWire), (k, qct) ∈ query →
      lookupField bundle k = some sct →
      (decrypt qct = .error .decryptionFailed ∨
       decrypt sct = .error .decryptionFailed) →
      verifyFields bundle query ov rng = .error .decryptionFailed := by
  intro query
  induction query with
  | nil => intro ov rng k qct sct hin; cases hin
  | cons p rest ih =>
    intro ov rng k qct sct hin hst hbad
    obtain ⟨k0, q0⟩ := p
    rcases List.mem_cons.mp hin with heq | hmem
    · obtain ⟨hk, hq⟩ := Prod.mk.injEq .. ▸ heq
      subst hk hq
      have hba : bundleAccess bundle k = some sct := by
        simp [bundleAccess, hst]
      simp only [verifyFields, hba]
      rcases hbad with hq | hs
      · simp [homomorphicEquality, hq]
      · cases hdq : decrypt qct with
        | error e => cases e; simp [homomorphicEquality, hdq]
        | ok v1 => simp [homomorphicEquality, hdq, hs]
    · simp only [verifyFields]
      cases hba : bundleAccess bundle k0 with
      | none => exact ih 0 (fun j => rng (j + 1)) k qct sct hmem hst hbad
      | some s0 =>
        cases hhe : homomorphicEquality q0 s0 (rng 0).1 (rng 0).2 with
        | error e => cases e; simp [hhe]
        | ok encMatch =>
          cases hdm : decrypt encMatch with
          | error e => cases e; simp [hhe, hdm]
          | ok im =>
            simp only [hhe, hdm]
            exact ih _ (fun j => rng (j + 1)) k qct sct hmem hst hbad

theorem not_structurallyInvalid_wf (j : Js) (hj : j ≠ Js.jNull) (nz : Option Js) :
    ¬ structurallyInvalid (.value (some (.jStr "FHE_CT")) (.content (.val j)) nz) := by
  intro h
  rcases h with h | h | ⟨t, d, n2, heq, hb⟩
  · cases h
  · cases h
  · injection heq with ht hd hn
    subst ht
    subst hd
    rcases hb with hb | hb | hb | hb
    · exact hb rfl
    · cases hb
    · cases hb
    · injection hb with hq
      injection hq with hq2
      exact hj hq2

/-- C6 (amended): decrypt fails with DecryptionFailed exactly on a
structurally invalid envelope — never because of the decrypted value — with
one correction to the stated failure set: a well-formed envelope whose
payload parses to a JSON document without a v property does not fail, it
decrypts to undefined, while a payload parsing to JSON null does fail.
Moreover a decryption failure of a compared query or stored ciphertext
surfaces as an error of the whole verification, never as a field mismatch. -/
theorem decrypt_fails_iff_structurally_invalid (w : CtWire)
    (bundle query : List (String × CtWire)) (rng : Nat → String × String)
    (rF nF : String) (k : String) (qct sct : CtWire)
    (hin : (k, qct) ∈ query) (hstored : lookupField bundle k = some sct)
    (hbad : decrypt qct = .error .decryptionFailed ∨
            decrypt sct = .error .decryptionFailed) :
    (decrypt w = .error .decryptionFailed ↔ structurallyInvalid w) ∧
    verifyBundle bundle query rng rF nF = .error .decryptionFailed := by
  constructor
  · cases w with
    | notJson => exact iff_of_true rfl (Or.inl rfl)
    | isNull => exact iff_of_true rfl (Or.inr (Or.inl rfl))
    | value t d nz =>
      cases hft : isFheTag t with
      | false =>
        refine iff_of_true ?_ (Or.inr (Or.inr
          ⟨t, d, nz, rfl, Or.inl ((isFheTag_false_iff t).mp hft)⟩))
        simp [decrypt, hft]
      | true =>
        have ht : t = some (.jStr "FHE_CT") := by
          by_contra hne
          rw [(isFheTag_false_iff t).mpr hne] at hft
          cases hft
        subst ht
        cases d with
        | invalid =>
          exact iff_of_true rfl
            (Or.inr (Or.inr ⟨_, _, nz, rfl, Or.inr (Or.inl rfl)⟩))
        | content pl =>
          cases pl with
          | notJson =>
            exact iff_of_true rfl
              (Or.inr (Or.inr ⟨_, _, nz, rfl, Or.inr (Or.inr (Or.inl rfl))⟩))
          | val j =>
            cases j with
            | jNull =>
              exact iff_of_true rfl
                (Or.inr (Or.inr ⟨_, _, nz, rfl, Or.inr (Or.inr (Or.inr rfl))⟩))
            | jBool b =>
              exact iff_of_false (fun h => Except.noConfusion h)
                (not_structurallyInvalid_wf _ (fun h => Js.noConfusion h) nz)
            | jNum m =>
              exact iff_of_false (fun h => Except.noConfusion h)
                (not_structurallyInvalid_wf _ (fun h => Js.noConfusion h) nz)
            | jStr s =>
              exact iff_of_false (fun h => Except.noConfusion h)
                (not_structurallyInvalid_wf _ (fun h => Js.noConfusion h) nz)
            | jArr xs =>
              exact iff_of_false (fun h => Except.noConfusion h)
                (not_structurallyInvalid_wf _ (fun h => Js.noConfusion h) nz)
            | jObj kvs =>
              exact iff_of_false (fun h => Except.noConfusion h)
                (not_structurallyInvalid_wf _ (fun h => Js.noConfusion h) nz)
  · rw [verifyBundle,
      verifyFields_error_of_bad_pair bundle query 1 rng k qct sct hin hstored hbad]

/-- Witness for C6: a query ciphertext that is not JSON, compared against a
present stored field, makes the whole verification fail. -/
theorem decrypt_fails_iff_structurally_invalid_witness :
    (decrypt CtWire.notJson = .error .decryptionFailed ↔
      structurallyInvalid CtWire.notJson) ∧
    verifyBundle [("age", encrypt (.vInt 35) "r1" "n1")]
      [("age", CtWire.notJson)] constRng "rf" "nf" =
      .error .decryptionFailed :=
  decrypt_fails_iff_structurally_invalid CtWire.notJson
    [("age", encrypt (.vInt 35) "r1" "n1")] [("age", CtWire.notJson)]
    constRng "rf" "nf" "age" CtWire.notJson (encrypt (.vInt 35) "r1" "n1")
    (List.mem_singleton.mpr rfl) rfl (Or.inl rfl)

/-- A well-formed envelope whose payload is the empty JSON object: in wire
terms the string with type FHE_CT, data the base64 encoding of two braces,
and an arbitrary noise tag. -/
def envelopeNoV : CtWire :=
  .value (some (.jStr "FHE_CT")) (.content (.val (.jObj []))) (some (.jStr "zz"))

/-- C6 counterexample: this envelope carries a payload that decodes to a
JSON document holding no value at all, so by the claim decryption has to
fail; instead decrypt returns undefined without any error. -/
theorem decrypt_payload_without_value_succeeds :
    decrypt envelopeNoV = .ok none ∧
    decrypt envelopeNoV ≠ .error .decryptionFailed := by
  refine ⟨rfl, ?_⟩
  intro h
  rw [show decrypt envelopeNoV = .ok none from rfl] at h
  cases h

/-- Spec-side reading of the date pattern YYYY-MM-DD: exactly ten
characters, hyphens at positions 4 and 7, decimal digits everywhere else. -/
def specDateFormat (s : String) : Prop :=
  s.toList.length = 10 ∧ s.toList.get? 4 = some '-' ∧
  s.toList.get? 7 = some '-' ∧
  ∀ k ∈ ([0, 1, 2, 3, 5, 6, 8, 9] : List Nat),
    (s.toList.get? k).map Char.isDigit = some true

theorem expiryDateOk_iff_spec (s : String) :
    expiryDateOk s = true ↔ specDateFormat s := by
  unfold expiryDateOk specDateFormat
  generalize s.toList = l
  rcases l with _ | ⟨c0, _ | ⟨c1, _ | ⟨c2, _ | ⟨c3, _ | ⟨c4, _ | ⟨c5, _ | ⟨c6,
    _ | ⟨c7, _ | ⟨c8, _ | ⟨c9, _ | ⟨c10, rest⟩⟩⟩⟩⟩⟩⟩⟩⟩⟩⟩
  · simp
  · simp
  · simp
  · simp
  · simp
  · simp
  · simp
  · simp
  · simp
  · simp
  · constructor
    · intro h
      simp only [Bool.and_eq_true, beq_iff_eq] at h
      obtain ⟨⟨⟨⟨⟨⟨⟨⟨⟨h0, h1⟩, h2⟩, h3⟩, h4⟩, h5⟩, h6⟩, h7⟩, h8⟩, h9⟩ := h
      refine ⟨rfl, congrArg some h4, congrArg some h7, ?_⟩
      intro k hk
      fin_cases hk
      · exact congrArg some h0
      · exact congrArg some h1
      · exact congrArg some h2
      · exact congrArg some h3
      · exact congrArg some h5
      · exact congrArg some h6
      · exact congrArg some h8
      · exact congrArg some h9
    · rintro ⟨-, h4, h7, hdig⟩
      have g0 := hdig 0 (by simp)
      have g1 := hdig 1 (by simp)
      have g2 := hdig 2 (by simp)
      have g3 := hdig 3 (by simp)
      have g5 := hdig 5 (by simp)
      have g6 := hdig 6 (by simp)
      have g8 := hdig 8 (by simp)
      have g9 := hdig 9 (by simp)
      simp only [Bool.and_eq_true, beq_iff_eq]
      exact ⟨⟨⟨⟨⟨⟨⟨⟨⟨Option.some.inj g0, Option.some.inj g1⟩,
        Option.some.inj g2⟩, Option.some.inj g3⟩, Option.some.inj h4⟩,
        Option.some.inj g5⟩, Option.some.inj g6⟩, Option.some.inj h7⟩,
        Option.some.inj g8⟩, Option.some.inj g9⟩
  · constructor
    · intro h; simp at h
    · rintro ⟨hlen, -⟩
      simp only [List.length_cons] at hlen
      omega

/-- Spec-side acceptance condition for registration: fullName non-empty,
age at least 18, passportId of length at least 5, expiryDate matching the
YYYY-MM-DD pattern, verificationCode of length at least 4. -/
def specAccepts (i : RegisterInput) : Prop :=
  1 ≤ utf16Len i.fullName ∧ 18 ≤ i.age ∧ 5 ≤ utf16Len i.passportId ∧
  specDateFormat i.expiryDate ∧ 4 ≤ utf16Len i.verificationCode

/-- A field of the registration input violates its schema check. -/
def fieldViolated (i : RegisterInput) (f : String) : Prop :=
  (f = "fullName" ∧ ¬ 1 ≤ utf16Len i.fullName) ∨
  (f = "age" ∧ ¬ 18 ≤ i.age) ∨
  (f = "passportId" ∧ ¬ 5 ≤ utf16Len i.passportId) ∨
  (f = "expiryDate" ∧ ¬ specDateFormat i.expiryDate) ∨
  (f = "verificationCode" ∧ ¬ 4 ≤ utf16Len i.verificationCode)

theorem registerIssues_eq_nil_iff (i : RegisterInput) :
    registerIssues i = [] ↔
      (1 ≤ utf16Len i.fullName ∧ 18 ≤ i.age ∧ 5 ≤ utf16Len i.passportId ∧
       expiryDateOk i.expiryDate = true ∧ 4 ≤ utf16Len i.verificationCode) := by
  unfold registerIssues
  split_ifs <;> simp_all

theorem mem_registerIssues_iff (i : RegisterInput) (z : ZodIssue) :
    z ∈ registerIssues i ↔
      ((¬ 1 ≤ utf16Len i.fullName ∧ z = ⟨"fullName", "Name is required"⟩) ∨
       (¬ 18 ≤ i.age ∧ z = ⟨"age", "Must be 18+"⟩) ∨
       (¬ 5 ≤ utf16Len i.passportId ∧ z = ⟨"passportId", "Invalid Passport ID"⟩) ∨
       (¬ expiryDateOk i.expiryDate = true ∧
         z = ⟨"expiryDate", "Format: YYYY-MM-DD"⟩) ∨
       (¬ 4 ≤ utf16Len i.verificationCode ∧
         z = ⟨"verificationCode", "Code required"⟩)) := by
  unfold registerIssues
  split_ifs <;> simp_all

/-- C7: the register handler accepts a raw-attribute input exactly when
fullName is non-empty, age is at least 18, passportId has length at least
5, expiryDate matches the YYYY-MM-DD pattern and verificationCode has
length at least 4, answering 201 with the record id the store assigned; on
any violation it answers a validation error whose non-empty issue list
names exactly the offending fields. -/
theorem register_accepts_iff_valid (hashHex : String → String) (newId : Int)
    (rng : Nat → String × String) (i : RegisterInput) :
    ((registerHandler hashHex newId rng i).1 = .created newId ↔ specAccepts i) ∧
    (¬ specAccepts i →
      ∃ issues, (registerHandler hashHex newId rng i).1 = .validationError issues ∧
        issues ≠ [] ∧ (∀ z ∈ issues, fieldViolated i z.field) ∧
        (∀ f, fieldViolated i f → ∃ z ∈ issues, z.field = f)) := by
  have hspec : specAccepts i ↔
      (1 ≤ utf16Len i.fullName ∧ 18 ≤ i.age ∧ 5 ≤ utf16Len i.passportId ∧
       expiryDateOk i.expiryDate = true ∧ 4 ≤ utf16Len i.verificationCode) := by
    unfold specAccepts
    rw [expiryDateOk_iff_spec]
  constructor
  · cases hie : registerIssues i with
    | nil =>
      have hval : (registerHandler hashHex newId rng i).1 = .created newId := by
        simp [registerHandler, hie]
      rw [hval]
      exact iff_of_true rfl (hspec.mpr ((registerIssues_eq_nil_iff i).mp hie))
    | cons z rest =>
      have hval : (registerHandler hashHex newId rng i).1 =
          .validationError (z :: rest) := by
        simp [registerHandler, hie]
      rw [hval]
      refine iff_of_false (fun h => RegisterOutcome.noConfusion h) ?_
      intro hacc
      rw [(registerIssues_eq_nil_iff i).mpr (hspec.mp hacc)] at hie
      cases hie
  · intro hacc
    cases hie : registerIssues i with
    | nil => exact absurd (hspec.mpr ((registerIssues_eq_nil_iff i).mp hie)) hacc
    | cons z rest =>
      refine ⟨z :: rest, by simp [registerHandler, hie], by simp, ?_, ?_⟩
      · intro z2 hz2
        rw [← hie] at hz2
        rcases (mem_registerIssues_iff i z2).mp hz2 with
          ⟨hc, hz⟩ | ⟨hc, hz⟩ | ⟨hc, hz⟩ | ⟨hc, hz⟩ | ⟨hc, hz⟩ <;> subst hz
        · exact Or.inl ⟨rfl, hc⟩
        · exact Or.inr (Or.inl ⟨rfl, hc⟩)
        · exact Or.inr (Or.inr (Or.inl ⟨rfl, hc⟩))
        · exact Or.inr (Or.inr (Or.inr (Or.inl
            ⟨rfl, fun hs => hc ((expiryDateOk_iff_spec _).mpr hs)⟩)))
        · exact Or.inr (Or.inr (Or.inr (Or.inr ⟨rfl, hc⟩)))
      · intro f hf
        have hmem : ∀ z2 : ZodIssue, z2 ∈ registerIssues i → z2 ∈ z :: rest := by
          intro z2 h2
          rwa [hie] at h2
        rcases hf with ⟨hf, hc⟩ | ⟨hf, hc⟩ | ⟨hf, hc⟩ | ⟨hf, hc⟩ | ⟨hf, hc⟩ <;>
          subst hf
        · exact ⟨⟨"fullName", "Name is required"⟩,
            hmem _ ((mem_registerIssues_iff i _).mpr (Or.inl ⟨hc, rfl⟩)), rfl⟩
        · exact ⟨⟨"age", "Must be 18+"⟩,
            hmem _ ((mem_registerIssues_iff i _).mpr
              (Or.inr (Or.inl ⟨hc, rfl⟩))), rfl⟩
        · exact ⟨⟨"passportId", "Invalid Passport ID"⟩,
            hmem _ ((mem_registerIssues_iff i _).mpr
              (Or.inr (Or.inr (Or.inl ⟨hc, rfl⟩)))), rfl⟩
        · exact ⟨⟨"expiryDate", "Format: YYYY-MM-DD"⟩,
            hmem _ ((mem_registerIssues_iff i _).mpr
              (Or.inr (Or.inr (Or.inr (Or.inl
                ⟨fun he => hc ((expiryDateOk_iff_spec _).mp he), rfl⟩))))), rfl⟩
        · exact ⟨⟨"verificationCode", "Code required"⟩,
            hmem _ ((mem_registerIssues_iff i _).mpr
              (Or.inr (Or.inr (Or.inr (Or.inr ⟨hc, rfl⟩))))), rfl⟩

/-- Witness for C7: the registration scenario input is accepted with id 1. -/
theorem register_accepts_iff_valid_witness :
    (registerHandler (fun s => s) 1 constRng amjadInput).1 = .created 1 :=
  (register_accepts_iff_valid (fun s => s) 1 constRng amjadInput).1.mpr
    ⟨by decide, by decide, by decide,
     (expiryDateOk_iff_spec "2030-01-01").mp rfl, by decide⟩

/-- C9: on every successful registration, the persisted record carries as
lookup key the hex digest of the raw passportId under the digest function
(createHash sha256, passed explicitly as the external primitive), the
stored bundle holds encryptions of exactly the four attributes fullName,
age, expiryDate and verificationCode — each decrypting to the registered
plaintext — and the raw passport identifier itself is never persisted: the
record depends on the passportId only through its digest, so any other
valid passportId with the same digest yields the identical record. -/
theorem register_persists_hash_and_bundle (hashHex : String → String)
    (newId : Int) (rng : Nat → String × String) (i : RegisterInput)
    (hok : registerIssues i = []) :
    ∃ rec : IdentityRecord,
      (registerHandler hashHex newId rng i).2 = some rec ∧
      rec.passportHash = hashHex i.passportId ∧
      rec.encryptedData.map Prod.fst =
        ["fullName", "age", "expiryDate", "verificationCode"] ∧
      rec.encryptedData.map (fun p => (p.1, decrypt p.2)) =
        [("fullName", .ok (some (.jStr i.fullName))),
         ("age", .ok (some (.jNum i.age))),
         ("expiryDate", .ok (some (.jStr i.expiryDate))),
         ("verificationCode", .ok (some (.jStr i.verificationCode)))] ∧
      (∀ p2 : String, registerIssues { i with passportId := p2 } = [] →
        hashHex p2 = hashHex i.passportId →
        (registerHandler hashHex newId rng { i with passportId := p2 }).2 =
          some rec) := by
  refine ⟨{ id := newId, passportHash := hashHex i.passportId,
            encryptedData := mkBundle i rng }, ?_, rfl, rfl, rfl, ?_⟩
  · simp [registerHandler, hok]
  · intro p2 hok2 hh
    simp only [registerHandler, hok2]
    simp [mkBundle, regFields, hh]

/-- Witness for C9 at the registration scenario input. -/
theorem register_persists_hash_and_bundle_witness :
    ∃ rec : IdentityRecord,
      (registerHandler (fun s => s) 1 constRng amjadInput).2 = some rec ∧
      rec.passportHash = amjadInput.passportId ∧
      rec.encryptedData.map Prod.fst =
        ["fullName", "age", "expiryDate", "verificationCode"] ∧
      rec.encryptedData.map (fun p => (p.1, decrypt p.2)) =
        [("fullName", .ok (some (.jStr amjadInput.fullName))),
         ("age", .ok (some (.jNum amjadInput.age))),
         ("expiryDate", .ok (some (.jStr amjadInput.expiryDate))),
         ("verificationCode", .ok (some (.jStr amjadInput.verificationCode)))] ∧
      (∀ p2 : String,
        registerIssues { amjadInput with passportId := p2 } = [] →
        p2 = amjadInput.passportId →
        (registerHandler (fun s => s) 1 constRng
          { amjadInput with passportId := p2 }).2 = some rec) :=
  register_persists_hash_and_bundle (fun s => s) 1 constRng amjadInput (by decide)
